import Mathlib

/-!
Verification of the Ethernet mediator core
(components/esp_eth/include/esp_eth_com.h): framing constants, frame-size
policy, PHY address detection, driver-state notification protocol, ioctl
command enumeration, and the PHY register access round trip.

The header under verification declares constants, the state and command
enumerations, the mediator struct and the detection entry point.  The
algorithmic bodies (frame validation, the detection scan, dispatch and the
notification discipline) live outside the sources given here, so they are
modelled from the specification text; each such definition carries a doc
comment saying so.
-/

namespace EspEth

/-- Error kinds of the core, following the error taxonomy of the spec and
the esp_err_t values named in the header: ESP_OK, ESP_FAIL,
ESP_ERR_INVALID_ARG, ESP_ERR_NOT_FOUND. -/
inductive EspErr where
  | ok
  | fail
  | invalidArg
  | notFound
  deriving DecidableEq, Repr

/-- ETH_MAX_PAYLOAD_LEN from the header. -/
def ETH_MAX_PAYLOAD_LEN : Nat := 1500

/-- ETH_MIN_PAYLOAD_LEN from the header. -/
def ETH_MIN_PAYLOAD_LEN : Nat := 46

/-- ETH_HEADER_LEN from the header: dest addr (6) + src addr (6) + length/type (2). -/
def ETH_HEADER_LEN : Nat := 14

/-- ETH_VLAN_TAG_LEN from the header: optional 802.1q VLAN tag. -/
def ETH_VLAN_TAG_LEN : Nat := 4

/-- ETH_JUMBO_FRAME_PAYLOAD_LEN from the header. -/
def ETH_JUMBO_FRAME_PAYLOAD_LEN : Nat := 9000

/-- Modelled from the spec: ETH_CRC_LEN is defined in hal/eth_types.h, which
is not among the sources here; the spec fixes it as a 4-byte Ethernet CRC
trailer supplied by the transport layer type definitions. -/
def ETH_CRC_LEN : Nat := 4

/-- ETH_MAX_PACKET_SIZE from the header:
header + VLAN tag + max payload + CRC. -/
def ETH_MAX_PACKET_SIZE : Nat :=
  ETH_HEADER_LEN + ETH_VLAN_TAG_LEN + ETH_MAX_PAYLOAD_LEN + ETH_CRC_LEN

/-- ETH_MIN_PACKET_SIZE from the header: header + min payload + CRC. -/
def ETH_MIN_PACKET_SIZE : Nat :=
  ETH_HEADER_LEN + ETH_MIN_PAYLOAD_LEN + ETH_CRC_LEN

/-- Modelled from the spec: the frame-size policy of section 4.4.  The
validation body is not among the sources here (only the constants it uses
are); per the spec it accepts exactly the total lengths in
[ETH_MIN_PACKET_SIZE, ETH_MAX_PACKET_SIZE] and rejects everything else with
InvalidArgument, never coercing the input. -/
def validate_frame_length (total_length : Nat) : EspErr :=
  if ETH_MIN_PACKET_SIZE ≤ total_length ∧ total_length ≤ ETH_MAX_PACKET_SIZE then
    EspErr.ok
  else
    EspErr.invalidArg

/-- C1: the framing constants have exactly the specified values, and the
derived packet-size constants are the specified sums over the 4-byte CRC
length, giving 1522 and 64. -/
theorem framing_constants_exact :
    ETH_MAX_PAYLOAD_LEN = 1500 ∧ ETH_MIN_PAYLOAD_LEN = 46 ∧
    ETH_HEADER_LEN = 14 ∧ ETH_VLAN_TAG_LEN = 4 ∧
    ETH_JUMBO_FRAME_PAYLOAD_LEN = 9000 ∧ ETH_CRC_LEN = 4 ∧
    ETH_MAX_PACKET_SIZE = 14 + 4 + 1500 + ETH_CRC_LEN ∧
    ETH_MIN_PACKET_SIZE = 14 + 46 + ETH_CRC_LEN ∧
    ETH_MAX_PACKET_SIZE = 1522 ∧ ETH_MIN_PACKET_SIZE = 64 := by
  decide

/-- C2: validate_frame_length accepts exactly the range
[ETH_MIN_PACKET_SIZE, ETH_MAX_PACKET_SIZE], otherwise fails with
InvalidArgument (its only two outcomes, so nothing is rounded, truncated or
padded); in particular 1522 and 64 succeed while 1523 and 63 fail. -/
theorem validate_frame_length_range :
    (∀ n : Nat, validate_frame_length n = EspErr.ok ↔
      (ETH_MIN_PACKET_SIZE ≤ n ∧ n ≤ ETH_MAX_PACKET_SIZE)) ∧
    (∀ n : Nat, validate_frame_length n = EspErr.ok ∨
      validate_frame_length n = EspErr.invalidArg) ∧
    validate_frame_length 1522 = EspErr.ok ∧
    validate_frame_length 1523 = EspErr.invalidArg ∧
    validate_frame_length 63 = EspErr.invalidArg ∧
    validate_frame_length 64 = EspErr.ok := by
  refine ⟨?_, ?_, by decide, by decide, by decide, by decide⟩
  · intro n
    by_cases h : ETH_MIN_PACKET_SIZE ≤ n ∧ n ≤ ETH_MAX_PACKET_SIZE
    · simp [validate_frame_length, h]
    · simp [validate_frame_length, h]
  · intro n
    by_cases h : ETH_MIN_PACKET_SIZE ≤ n ∧ n ≤ ETH_MAX_PACKET_SIZE
    · exact Or.inl (by simp [validate_frame_length, h])
    · exact Or.inr (by simp [validate_frame_length, h])

/-- The mediator of the header (struct esp_eth_mediator_s), restricted to
the one operation the detection algorithm uses: phy_reg_read, which takes a
PHY chip address and a register index and yields an esp_err_t status
together with the register value read (the out parameter reg_value of the C
signature). -/
structure Mediator where
  phy_reg_read : Nat → Nat → EspErr × Nat

/-- Modelled from the spec: the fixed chip-agnostic probe register of the
detection scan (conventionally register index 0, the basic control
register); the detection body that fixes it is not among the sources
here. -/
def PHY_PROBE_REG : Nat := 0

/-- Modelled from the spec: a probe of one candidate address hits when the
read of the probe register succeeds and the value is not the all-ones
no-device sentinel 0xFFFF. -/
def probeHit (m : Mediator) (a : Nat) : Bool :=
  let r := m.phy_reg_read a PHY_PROBE_REG
  if r.1 = EspErr.ok ∧ r.2 ≠ 0xFFFF then true else false

/-- Result of the detection entry point: status, detected address on
success, and the list of candidate addresses probed (one read of
PHY_PROBE_REG each) in the order the bus transactions were issued. -/
structure DetectResult where
  err : EspErr
  addr : Option Nat
  probes : List Nat
  deriving DecidableEq, Repr

/-- Modelled from the spec: the ascending linear scan of the detection
algorithm, starting at address a with n candidates left; it stops at the
first hit.  Returns the probe log and the detected address, if any. -/
def scanAux (m : Mediator) : Nat → Nat → List Nat × Option Nat
  | 0, _ => ([], none)
  | n + 1, a =>
    if probeHit m a then
      ([a], some a)
    else
      let rest := scanAux m n (a + 1)
      (a :: rest.1, rest.2)

/-- Modelled from the spec: esp_eth_detect_phy_addr, whose body is not
among the sources here (the header only declares it).  Per section 4.2: an
invalid (null) mediator fails with InvalidArgument before any bus
transaction; otherwise the candidate addresses 0..31 are scanned in
ascending order and the first hit is returned, or NotFound after all 32
probes.  The C out-pointer detected_addr becomes the addr field of the
result. -/
def esp_eth_detect_phy_addr (eth : Option Mediator) : DetectResult :=
  match eth with
  | none => ⟨EspErr.invalidArg, none, []⟩
  | some m =>
    let s := scanAux m 32 0
    match s.2 with
    | some a => ⟨EspErr.ok, some a, s.1⟩
    | none => ⟨EspErr.notFound, none, s.1⟩

/-- A mediator whose register reads always succeed and depend only on the
address, as in the testable-properties section: reads modelled by a
function from address to value. -/
def totalMediator (f : Nat → Nat) : Mediator :=
  ⟨fun a _r => (EspErr.ok, f a)⟩

theorem probeHit_totalMediator (f : Nat → Nat) (a : Nat) :
    probeHit (totalMediator f) a = true ↔ f a ≠ 0xFFFF := by
  by_cases h : f a = 0xFFFF <;>
    simp [probeHit, totalMediator, h]

/-- Characterization of the scan: if it detects address r, then r is the
first hit in the window [a, a + n) and the probe log is exactly the
ascending run a, a+1, ..., r; if it detects nothing, every candidate in the
window was probed and missed. -/
theorem scanAux_spec (m : Mediator) :
    ∀ n a : Nat,
      (∀ r : Nat, (scanAux m n a).2 = some r →
        a ≤ r ∧ r < a + n ∧ probeHit m r = true ∧
        (∀ b : Nat, a ≤ b → b < r → probeHit m b = false) ∧
        (scanAux m n a).1 = List.range' a (r + 1 - a)) ∧
      ((scanAux m n a).2 = none →
        (∀ b : Nat, a ≤ b → b < a + n → probeHit m b = false) ∧
        (scanAux m n a).1 = List.range' a n) := by
  intro n
  induction n with
  | zero =>
    intro a
    refine ⟨fun r hr => by simp [scanAux] at hr, fun _ => ⟨fun b hb hb2 => ?_, ?_⟩⟩
    · omega
    · simp [scanAux, List.range']
  | succ n ih =>
    intro a
    by_cases hp : probeHit m a
    · refine ⟨fun r hr => ?_, fun hn => ?_⟩
      · simp only [scanAux, hp, if_true] at hr ⊢
        obtain rfl : a = r := by simpa using hr
        refine ⟨le_refl a, by omega, hp, fun b hb hb2 => by omega, ?_⟩
        simp [scanAux, hp, List.range']
      · simp [scanAux, hp] at hn
    · refine ⟨fun r hr => ?_, fun hn => ?_⟩
      · simp only [scanAux, hp, if_false, Bool.false_eq_true] at hr ⊢
        have hrec := (ih (a + 1)).1 r hr
        obtain ⟨h1, h2, h3, h4, h5⟩ := hrec
        refine ⟨by omega, by omega, h3, fun b hb hb2 => ?_, ?_⟩
        · rcases Nat.eq_or_lt_of_le hb with hba | hba
          · simpa [← hba] using Bool.eq_false_iff.mpr (by simpa using hp)
          · exact h4 b (by omega) hb2
        · have hlen : r + 1 - a = (r + 1 - (a + 1)) + 1 := by omega
          rw [hlen, List.range'_succ, h5]
      · simp only [scanAux, hp, if_false, Bool.false_eq_true] at hn ⊢
        have hrec := (ih (a + 1)).2 hn
        obtain ⟨h1, h2⟩ := hrec
        refine ⟨fun b hb hb2 => ?_, ?_⟩
        · rcases Nat.eq_or_lt_of_le hb with hba | hba
          · simpa [← hba] using Bool.eq_false_iff.mpr (by simpa using hp)
          · exact h1 b (by omega) (by omega)
        · rw [List.range'_succ, h2]

theorem probeHit_totalMediator_false (f : Nat → Nat) (b : Nat) :
    probeHit (totalMediator f) b = false ↔ f b = 0xFFFF := by
  by_cases h : f b = 0xFFFF <;> simp [probeHit, totalMediator, h]

/-- C3: for a mediator whose reads are a function from address to value,
detection scans 0..31 ascending (the probe log is the ascending run from 0),
probing the one fixed register per candidate, and returns the least address
reading a non-0xFFFF value; with no such address it fails with NotFound
after exactly the 32 probes 0..31. -/
theorem detect_phy_addr_ascending_first_match (f : Nat → Nat) :
    (∀ a : Nat,
      (esp_eth_detect_phy_addr (some (totalMediator f))).addr = some a →
        (esp_eth_detect_phy_addr (some (totalMediator f))).err = EspErr.ok ∧
        a < 32 ∧ f a ≠ 0xFFFF ∧
        (∀ b : Nat, b < a → f b = 0xFFFF) ∧
        (esp_eth_detect_phy_addr (some (totalMediator f))).probes =
          List.range (a + 1)) ∧
    ((∀ b : Nat, b < 32 → f b = 0xFFFF) →
      esp_eth_detect_phy_addr (some (totalMediator f)) =
        ⟨EspErr.notFound, none, List.range 32⟩) := by
  constructor
  · intro a ha
    cases h : (scanAux (totalMediator f) 32 0).2 with
    | none => simp [esp_eth_detect_phy_addr, h] at ha
    | some r =>
      obtain ⟨h1, h2, h3, h4, h5⟩ :=
        (scanAux_spec (totalMediator f) 32 0).1 r h
      have har : r = a := by simpa [esp_eth_detect_phy_addr, h] using ha
      subst har
      refine ⟨by simp [esp_eth_detect_phy_addr, h], by omega,
        (probeHit_totalMediator f r).mp h3, fun b hb => ?_, ?_⟩
      · exact (probeHit_totalMediator_false f b).mp (h4 b (Nat.zero_le b) hb)
      · have : (esp_eth_detect_phy_addr (some (totalMediator f))).probes =
            (scanAux (totalMediator f) 32 0).1 := by
          simp [esp_eth_detect_phy_addr, h]
        rw [this, h5, List.range_eq_range', Nat.sub_zero]
  · intro hall
    cases h : (scanAux (totalMediator f) 32 0).2 with
    | some r =>
      obtain ⟨h1, h2, h3, -, -⟩ :=
        (scanAux_spec (totalMediator f) 32 0).1 r h
      have : f r = 0xFFFF := hall r (by omega)
      exact absurd this ((probeHit_totalMediator f r).mp h3)
    | none =>
      obtain ⟨-, h2⟩ := (scanAux_spec (totalMediator f) 32 0).2 h
      simp only [esp_eth_detect_phy_addr, h]
      rw [DetectResult.mk.injEq]
      exact ⟨rfl, rfl, by rw [h2, List.range_eq_range']⟩

/-- The read function of the detection witness: address 5 answers with a
plausible register value, every other address reads as the no-device
sentinel. -/
def probeWitnessF : Nat → Nat := fun a => if a = 5 then 0x0022 else 0xFFFF

theorem detect_phy_addr_ascending_first_match_witness :
    (esp_eth_detect_phy_addr (some (totalMediator probeWitnessF))).addr =
      some 5 ∧
    (esp_eth_detect_phy_addr (some (totalMediator probeWitnessF))).err =
      EspErr.ok ∧
    (esp_eth_detect_phy_addr (some (totalMediator probeWitnessF))).probes =
      List.range 6 :=
  ⟨by decide,
   ((detect_phy_addr_ascending_first_match probeWitnessF).1 5 (by decide)).1,
   ((detect_phy_addr_ascending_first_match probeWitnessF).1 5
     (by decide)).2.2.2.2⟩

/-- C4: the detection entry point has exactly three outcomes: success with
a detected address in [0, 31], NotFound, or InvalidArgument. -/
theorem detect_phy_addr_outcomes :
    ∀ eth : Option Mediator,
      ((esp_eth_detect_phy_addr eth).err = EspErr.ok ∧
        ∃ a : Nat, a ≤ 31 ∧ (esp_eth_detect_phy_addr eth).addr = some a) ∨
      ((esp_eth_detect_phy_addr eth).err = EspErr.notFound ∧
        (esp_eth_detect_phy_addr eth).addr = none) ∨
      ((esp_eth_detect_phy_addr eth).err = EspErr.invalidArg ∧
        (esp_eth_detect_phy_addr eth).addr = none) := by
  intro eth
  cases eth with
  | none => exact Or.inr (Or.inr ⟨rfl, rfl⟩)
  | some m =>
    cases h : (scanAux m 32 0).2 with
    | some r =>
      obtain ⟨-, h2, -, -, -⟩ := (scanAux_spec m 32 0).1 r h
      exact Or.inl ⟨by simp [esp_eth_detect_phy_addr, h],
        r, by omega, by simp [esp_eth_detect_phy_addr, h]⟩
    | none =>
      exact Or.inr (Or.inl ⟨by simp [esp_eth_detect_phy_addr, h],
        by simp [esp_eth_detect_phy_addr, h]⟩)

/-- C5: a null mediator fails with InvalidArgument and the probe log is
empty: no bus transaction is issued before the argument check rejects the
call. -/
theorem detect_phy_addr_null_mediator :
    esp_eth_detect_phy_addr none = ⟨EspErr.invalidArg, none, []⟩ := rfl

/-- esp_eth_state_t from the header, constructors in declaration order:
ETH_STATE_LLINIT, ETH_STATE_DEINIT, ETH_STATE_LINK, ETH_STATE_SPEED,
ETH_STATE_DUPLEX, ETH_STATE_PAUSE. -/
inductive EspEthState where
  | llinit
  | deinit
  | link
  | speed
  | duplex
  | pause
  deriving DecidableEq, Repr

/-- The numeric value the C enum assigns to each enumerator: consecutive
from 0 in declaration order, as the header gives no explicit values. -/
def EspEthState.val : EspEthState → Nat
  | .llinit => 0
  | .deinit => 1
  | .link => 2
  | .speed => 3
  | .duplex => 4
  | .pause => 5

/-- Lifecycle phase of one mediator instance, used by the notification
discipline: fresh (nothing notified yet), inited (LowLevelInitialized
seen), dead (Deinitialized seen). -/
inductive MedPhase where
  | fresh
  | inited
  | dead
  deriving DecidableEq, Repr

/-- Modelled from the spec: one state notification of section 4.3.  On a
fresh instance only LowLevelInitialized is valid; after it, the recurring
states may occur any number of times (the spec does not forbid a repeated
LowLevelInitialized, so the model admits it) and Deinitialized moves the
instance to dead; after Deinitialized nothing is valid. -/
def notifyStep : MedPhase → EspEthState → Option MedPhase
  | .fresh, .llinit => some .inited
  | .fresh, _ => none
  | .inited, .deinit => some .dead
  | .inited, _ => some .inited
  | .dead, _ => none

/-- Runs a sequence of notifications from a phase; none when some
notification in the sequence is invalid. -/
def runNotify : MedPhase → List EspEthState → Option MedPhase
  | p, [] => some p
  | p, s :: rest =>
    match notifyStep p s with
    | none => none
    | some q => runNotify q rest

/-- A notification sequence is valid for one mediator instance when every
notification in it is accepted, starting from a fresh instance. -/
def validNotifySeq (s : List EspEthState) : Bool :=
  (runNotify MedPhase.fresh s).isSome

theorem runNotify_dead_isSome (s : List EspEthState) :
    (runNotify MedPhase.dead s).isSome = true ↔ s = [] := by
  cases s with
  | nil => simp [runNotify]
  | cons a t => cases a <;> simp [runNotify, notifyStep]

theorem runNotify_inited_isSome (s : List EspEthState) :
    (runNotify MedPhase.inited s).isSome = true ↔
      EspEthState.deinit ∉ s.dropLast := by
  induction s with
  | nil => simp [runNotify]
  | cons a t ih =>
    cases t with
    | nil => cases a <;> simp [runNotify, notifyStep, List.dropLast]
    | cons b u =>
      cases a with
      | deinit =>
        rw [show runNotify MedPhase.inited (EspEthState.deinit :: b :: u) =
          runNotify MedPhase.dead (b :: u) from rfl, runNotify_dead_isSome]
        simp [List.dropLast]
      | llinit =>
        rw [show runNotify MedPhase.inited (EspEthState.llinit :: b :: u) =
          runNotify MedPhase.inited (b :: u) from rfl, ih]
        simp [List.dropLast]
      | link =>
        rw [show runNotify MedPhase.inited (EspEthState.link :: b :: u) =
          runNotify MedPhase.inited (b :: u) from rfl, ih]
        simp [List.dropLast]
      | speed =>
        rw [show runNotify MedPhase.inited (EspEthState.speed :: b :: u) =
          runNotify MedPhase.inited (b :: u) from rfl, ih]
        simp [List.dropLast]
      | duplex =>
        rw [show runNotify MedPhase.inited (EspEthState.duplex :: b :: u) =
          runNotify MedPhase.inited (b :: u) from rfl, ih]
        simp [List.dropLast]
      | pause =>
        rw [show runNotify MedPhase.inited (EspEthState.pause :: b :: u) =
          runNotify MedPhase.inited (b :: u) from rfl, ih]
        simp [List.dropLast]

theorem validNotifySeq_characterization (s : List EspEthState) :
    validNotifySeq s = true ↔
      ((s = [] ∨ s.head? = some EspEthState.llinit) ∧
        EspEthState.deinit ∉ s.dropLast) := by
  cases s with
  | nil => simp [validNotifySeq, runNotify]
  | cons a t =>
    cases a with
    | llinit =>
      rw [show validNotifySeq (EspEthState.llinit :: t) =
        (runNotify MedPhase.inited t).isSome from rfl, runNotify_inited_isSome]
      cases t with
      | nil => simp [List.dropLast]
      | cons b u => simp [List.dropLast]
    | deinit => simp [validNotifySeq, runNotify, notifyStep]
    | link => simp [validNotifySeq, runNotify, notifyStep]
    | speed => simp [validNotifySeq, runNotify, notifyStep]
    | duplex => simp [validNotifySeq, runNotify, notifyStep]
    | pause => simp [validNotifySeq, runNotify, notifyStep]

/-- C6: a notification sequence over one mediator instance is valid exactly
when its first notification (if any) is LowLevelInitialized and nothing
follows a Deinitialized notification; the recurring states are otherwise
unconstrained in number and order.  In particular LinkChanged on a fresh
instance fails, and any state after Deinitialized fails. -/
theorem notify_protocol_characterization :
    (∀ s : List EspEthState,
      validNotifySeq s = true ↔
        ((s = [] ∨ s.head? = some EspEthState.llinit) ∧
          EspEthState.deinit ∉ s.dropLast)) ∧
    validNotifySeq [EspEthState.link] = false ∧
    (∀ st : EspEthState,
      validNotifySeq
        [EspEthState.llinit, EspEthState.deinit, st] = false) :=
  ⟨validNotifySeq_characterization, by decide, fun st => by cases st <;> rfl⟩

/-- C9: the numeric values of esp_eth_state_t do not mirror the lifecycle
order: ETH_STATE_LLINIT = 0, ETH_STATE_DEINIT = 1 and the recurring states
take 2..5, so a valid sequence exists (LLINIT, LINK, DEINIT) whose numeric
values are not monotone — numeric comparison cannot check notification
order legality. -/
theorem state_enum_numbering :
    EspEthState.val .llinit = 0 ∧ EspEthState.val .deinit = 1 ∧
    EspEthState.val .link = 2 ∧ EspEthState.val .speed = 3 ∧
    EspEthState.val .duplex = 4 ∧ EspEthState.val .pause = 5 ∧
    validNotifySeq
      [EspEthState.llinit, EspEthState.link, EspEthState.deinit] = true ∧
    EspEthState.val .deinit < EspEthState.val .link := by
  decide

/-- esp_eth_io_cmd_t from the header, constructors in declaration order. -/
inductive EspEthIoCmd where
  | g_mac_addr
  | s_mac_addr
  | g_phy_addr
  | s_phy_addr
  | g_autonego
  | s_autonego
  | g_speed
  | s_speed
  | s_promiscuous
  | s_flow_ctrl
  | g_duplex_mode
  | s_duplex_mode
  | s_phy_loopback
  deriving DecidableEq, Repr, Fintype

/-- The numeric value the C enum assigns to each command tag: consecutive
from 0 in declaration order, as the header gives no explicit values. -/
def EspEthIoCmd.val : EspEthIoCmd → Nat
  | .g_mac_addr => 0
  | .s_mac_addr => 1
  | .g_phy_addr => 2
  | .s_phy_addr => 3
  | .g_autonego => 4
  | .s_autonego => 5
  | .g_speed => 6
  | .s_speed => 7
  | .s_promiscuous => 8
  | .s_flow_ctrl => 9
  | .g_duplex_mode => 10
  | .s_duplex_mode => 11
  | .s_phy_loopback => 12

/-- The 13 command tags in their numeric order. -/
def ioCmdAll : List EspEthIoCmd :=
  [.g_mac_addr, .s_mac_addr, .g_phy_addr, .s_phy_addr, .g_autonego,
   .s_autonego, .g_speed, .s_speed, .s_promiscuous, .s_flow_ctrl,
   .g_duplex_mode, .s_duplex_mode, .s_phy_loopback]

/-- Modelled from the spec: recognition of a numeric command tag.  The
recognized tags are exactly the 13 enumerators under the C numeric
assignment; any other value is unrecognized. -/
def decodeIoCmd (tag : Nat) : Option EspEthIoCmd :=
  ioCmdAll.get? tag

/-- Modelled from the spec: dispatch is a pure routing decision — a
recognized tag goes to its handler, an unrecognized tag fails with
InvalidArgument and leaves the state untouched, never silently ignored. -/
def eth_ioctl {σ : Type} (handler : EspEthIoCmd → σ → EspErr × σ)
    (tag : Nat) (st : σ) : EspErr × σ :=
  match decodeIoCmd tag with
  | some c => handler c st
  | none => (EspErr.invalidArg, st)

theorem decodeIoCmd_none_of_ge (tag : Nat) (h : 13 ≤ tag) :
    decodeIoCmd tag = none := by
  unfold decodeIoCmd
  exact List.get?_eq_none.mpr (by simpa [ioCmdAll] using h)

theorem decodeIoCmd_isSome (tag : Nat) :
    (decodeIoCmd tag).isSome = true ↔ tag ≤ 12 := by
  constructor
  · intro h
    by_contra hc
    rw [decodeIoCmd_none_of_ge tag (by omega)] at h
    simp at h
  · intro h
    interval_cases tag <;> rfl

/-- C7: the command enumeration is a closed set of exactly 13 tags, and
dispatch of any tag value outside it fails with InvalidArgument with the
state unchanged (no side effect), for every handler. -/
theorem io_cmd_closed_thirteen :
    Fintype.card EspEthIoCmd = 13 ∧
    (∀ (σ : Type) (handler : EspEthIoCmd → σ → EspErr × σ)
        (tag : Nat) (st : σ),
      13 ≤ tag → eth_ioctl handler tag st = (EspErr.invalidArg, st)) := by
  refine ⟨by decide, fun σ handler tag st h => ?_⟩
  unfold eth_ioctl
  rw [decodeIoCmd_none_of_ge tag h]

theorem io_cmd_closed_thirteen_witness :
    (13 : Nat) ≤ 13 ∧
    eth_ioctl (fun _ (s : Nat) => (EspErr.ok, s)) 13 0 =
      (EspErr.invalidArg, 0) :=
  ⟨by decide,
   io_cmd_closed_thirteen.2 Nat (fun _ s => (EspErr.ok, s)) 13 0 (by decide)⟩

/-- C10: the 13 command tags take the consecutive values 0..12 in
declaration order with no gaps (decoding the value of a tag recovers the
tag), a tag value is recognized exactly when it lies in [0, 12], and each
get/set pair for one target sits on adjacent values with get first. -/
theorem io_cmd_enum_numbering :
    EspEthIoCmd.val .g_mac_addr = 0 ∧ EspEthIoCmd.val .s_mac_addr = 1 ∧
    EspEthIoCmd.val .g_phy_addr = 2 ∧ EspEthIoCmd.val .s_phy_addr = 3 ∧
    EspEthIoCmd.val .g_autonego = 4 ∧ EspEthIoCmd.val .s_autonego = 5 ∧
    EspEthIoCmd.val .g_speed = 6 ∧ EspEthIoCmd.val .s_speed = 7 ∧
    EspEthIoCmd.val .s_promiscuous = 8 ∧ EspEthIoCmd.val .s_flow_ctrl = 9 ∧
    EspEthIoCmd.val .g_duplex_mode = 10 ∧
    EspEthIoCmd.val .s_duplex_mode = 11 ∧
    EspEthIoCmd.val .s_phy_loopback = 12 ∧
    (∀ c : EspEthIoCmd, decodeIoCmd c.val = some c) ∧
    (∀ tag : Nat, (decodeIoCmd tag).isSome = true ↔ tag ≤ 12) ∧
    EspEthIoCmd.val .s_mac_addr = EspEthIoCmd.val .g_mac_addr + 1 ∧
    EspEthIoCmd.val .s_phy_addr = EspEthIoCmd.val .g_phy_addr + 1 ∧
    EspEthIoCmd.val .s_autonego = EspEthIoCmd.val .g_autonego + 1 ∧
    EspEthIoCmd.val .s_speed = EspEthIoCmd.val .g_speed + 1 ∧
    EspEthIoCmd.val .s_duplex_mode = EspEthIoCmd.val .g_duplex_mode + 1 :=
  ⟨rfl, rfl, rfl, rfl, rfl, rfl, rfl, rfl, rfl, rfl, rfl, rfl, rfl,
   fun c => by cases c <;> rfl, decodeIoCmd_isSome,
   rfl, rfl, rfl, rfl, rfl⟩

/-- Modelled from the spec: a stable mock transport backing the mediator
register operations — the register state is a total map from PHY address
and register index to value, changed only by the write operation.  Values
are 32-bit, as in the uint32_t reg_value of the C signatures. -/
structure MockBus where
  regs : Nat → Nat → Nat

/-- Modelled from the spec: write_phy_register against the mock transport
stores the (32-bit) value at the addressed register and touches nothing
else. -/
def write_phy_register (b : MockBus) (a r v : Nat) : MockBus :=
  ⟨fun a2 r2 => if a2 = a ∧ r2 = r then v % 2 ^ 32 else b.regs a2 r2⟩

/-- Modelled from the spec: read_phy_register against the mock transport
yields the stored value of the addressed register. -/
def read_phy_register (b : MockBus) (a r : Nat) : Nat :=
  b.regs a r

/-- C8: for every PHY address in [0, 31], register index in its valid
range and 32-bit value, a write followed by a read of the same register on
the stable mock transport returns the written value. -/
theorem phy_register_roundtrip :
    ∀ (b : MockBus) (a r v : Nat), a ≤ 31 → r ≤ 31 → v < 2 ^ 32 →
      read_phy_register (write_phy_register b a r v) a r = v := by
  intro b a r v ha hr hv
  simp only [read_phy_register, write_phy_register, and_self, if_pos]
  exact Nat.mod_eq_of_lt hv

theorem phy_register_roundtrip_witness :
    (31 : Nat) ≤ 31 ∧ (0 : Nat) ≤ 31 ∧ (0x1234 : Nat) < 2 ^ 32 ∧
    read_phy_register
      (write_phy_register ⟨fun _ _ => 0⟩ 31 0 0x1234) 31 0 = 0x1234 :=
  ⟨by decide, by decide, by norm_num,
   phy_register_roundtrip ⟨fun _ _ => 0⟩ 31 0 0x1234
     (by decide) (by decide) (by norm_num)⟩

end EspEth
